import Mathlib

/-!
Verification development for the tracker filesystem-miner core
(src/libtracker-miner/tracker-miner-fs.c).

The controller state (TrackerMinerFSPrivate) is embedded as a Lean
structure; each C function that the claims touch is translated into a
pure Lean function over that state.  GFile values are modelled as lists
of path components, so that g_file_equal and g_file_has_prefix have
their glib meaning (a file "has prefix" a directory when it lives
strictly underneath it in the hierarchy).  Store lookups, stat calls,
the file-lock test and the ::process-file handler result are oracles
passed explicitly to the functions that consult them.
-/

namespace Tracker

/-- A GFile, as a list of path components. -/
abbrev GFile := List String

/-- ItemMovedData: destination file and source file of a queued move. -/
structure ItemMovedData where
  file : GFile
  sourceFile : GFile
deriving DecidableEq, Repr

/-- ProcessData: an in-flight entry of the processing pool.  The
GCancellable is modelled by its cancelled flag; none stands for the
NULL cancellable that item_remove and item_move pass to
process_data_new. -/
structure ProcessData where
  file : GFile
  cancellable : Option Bool
deriving DecidableEq, Repr

/-- How a GLib source was installed by _tracker_idle_add: as an idle
hook, or as a timeout of the given number of milliseconds. -/
inductive ScheduleKind where
  | idle : ScheduleKind
  | timeout (msec : Nat) : ScheduleKind
deriving DecidableEq, Repr

/-- The TrackerMinerFSPrivate state.  The two GLib source ids
(item_queues_handler_id, crawl_directories_id) are modelled as
Option ScheduleKind: none means the id is 0 (not installed). -/
structure MinerFS where
  itemsCreated : List GFile
  itemsUpdated : List GFile
  itemsDeleted : List GFile
  itemsMoved : List ItemMovedData
  processingPool : List ProcessData
  poolLimit : Nat
  throttle : ℚ
  itemQueuesHandler : Option ScheduleKind
  crawlDirectoriesId : Option ScheduleKind
  isPaused : Bool
  isCrawling : Bool
  beenStarted : Bool
  beenCrawled : Bool
  directories : List (GFile × Bool)
  totalDirectoriesFound : Nat
  totalFilesFound : Nat
deriving DecidableEq, Repr

/-- g_file_equal. -/
def gFileEqual (a b : GFile) : Bool := a = b

/-- g_file_has_prefix file parent: file lives strictly underneath
parent (equality is excluded, as in glib). -/
def gFileHasPrefix (file parent : GFile) : Bool :=
  parent.isPrefixOf file && file ≠ parent

/-- MAX_TIMEOUT_INTERVAL.  Modelled from the spec: the constant lives
in tracker-utils.h, which is not part of the sources here; the spec
gives the design default MAX_INTERVAL = 10 ms. -/
def MAX_TIMEOUT_INTERVAL : Nat := 10

/-- The C assignment `guint interval = MAX_TIMEOUT_INTERVAL *
fs->private->throttle`: a nonnegative double truncated to an unsigned
integer.  For a throttle num/den in lowest terms with num ≥ 0 the
truncation of maxInterval * num/den is the natural division
(maxInterval * num) / den; this form evaluates in the kernel. -/
def throttleInterval (maxInterval : Nat) (throttle : ℚ) : Nat :=
  (maxInterval * throttle.num.toNat) / throttle.den

/-- throttleInterval is the floor of the product it models, for the
nonnegative throttles the clamp produces. -/
theorem throttleInterval_eq_floor (m : Nat) (q : ℚ) (h : 0 ≤ q) :
    (throttleInterval m q : ℤ) = Int.floor ((m : ℚ) * q) := by
  have hnum : 0 ≤ q.num := Rat.num_nonneg.mpr h
  have hrepr : (m : ℚ) * q = ((m * q.num.toNat : ℤ) : ℚ) / ((q.den : ℕ) : ℚ) := by
    rw [Int.toNat_of_nonneg hnum]
    conv_lhs => rw [← Rat.num_div_den q]
    push_cast
    ring
  rw [hrepr, Rat.floor_intCast_div_natCast]
  unfold throttleInterval
  push_cast
  rfl


/-- _tracker_idle_add: the kind of source installed for the given
throttle (g_idle_add when the computed interval is 0, else
g_timeout_add of that many milliseconds). -/
def trackerIdleAddKind (maxInterval : Nat) (throttle : ℚ) : ScheduleKind :=
  let interval := throttleInterval maxInterval throttle
  if interval = 0 then .idle else .timeout interval

/-- The freshly initialised state (tracker_miner_fs_init plus the
construct-time process-pool-limit property). -/
def initState (poolLimit : Nat) : MinerFS where
  itemsCreated := []
  itemsUpdated := []
  itemsDeleted := []
  itemsMoved := []
  processingPool := []
  poolLimit := poolLimit
  throttle := 0
  itemQueuesHandler := none
  crawlDirectoriesId := none
  isPaused := false
  isCrawling := false
  beenStarted := false
  beenCrawled := false
  directories := []
  totalDirectoriesFound := 0
  totalFilesFound := 0

/-- crawl_directories_start: installs the crawl idle source unless one
is already installed or the miner has not been started. -/
def crawlDirectoriesStart (fs : MinerFS) : MinerFS :=
  if fs.crawlDirectoriesId.isSome then fs
  else if !fs.beenStarted then fs
  else
    let k := trackerIdleAddKind MAX_TIMEOUT_INTERVAL fs.throttle
    { fs with crawlDirectoriesId := some k }

/-- miner_started: marks the miner started and begins crawling. -/
def minerStarted (fs : MinerFS) : MinerFS :=
  crawlDirectoriesStart { fs with beenStarted := true }

/-- tracker_miner_fs_add_directory: appends the directory to the list
of directories to inspect and starts the crawl machinery. -/
def trackerMinerFsAddDirectory (fs : MinerFS) (file : GFile)
    (recurse : Bool) : MinerFS :=
  crawlDirectoriesStart
    { fs with directories := fs.directories ++ [(file, recurse)] }

/-- item_queue_handlers_set_up: installs the queue handler unless one
is installed already, the miner is paused, or the processing pool is
full. -/
def itemQueueHandlersSetUp (fs : MinerFS) : MinerFS :=
  if fs.itemQueuesHandler.isSome then fs
  else if fs.isPaused then fs
  else if fs.processingPool.length ≥ fs.poolLimit then fs
  else
    let k := trackerIdleAddKind MAX_TIMEOUT_INTERVAL fs.throttle
    { fs with itemQueuesHandler := some k }

/-- monitor_item_created_cb.  shouldProcess is the result of
should_check_file (the check-file / check-directory signal). -/
def monitorItemCreatedCb (fs : MinerFS) (file : GFile)
    (isDirectory shouldProcess : Bool) : MinerFS :=
  if shouldProcess then
    if isDirectory then
      trackerMinerFsAddDirectory fs file true
    else
      itemQueueHandlersSetUp
        { fs with itemsCreated := fs.itemsCreated ++ [file] }
  else fs

/-- monitor_item_updated_cb. -/
def monitorItemUpdatedCb (fs : MinerFS) (file : GFile)
    (shouldProcess : Bool) : MinerFS :=
  if shouldProcess then
    itemQueueHandlersSetUp
      { fs with itemsUpdated := fs.itemsUpdated ++ [file] }
  else fs

/-- monitor_item_deleted_cb. -/
def monitorItemDeletedCb (fs : MinerFS) (file : GFile)
    (shouldProcess : Bool) : MinerFS :=
  if shouldProcess then
    itemQueueHandlersSetUp
      { fs with itemsDeleted := fs.itemsDeleted ++ [file] }
  else fs

/-- monitor_item_moved_cb.  sourceStored is the item_query_exists
result on the source file; shouldProcessOther is should_check_file on
the destination. -/
def monitorItemMovedCb (fs : MinerFS) (file otherFile : GFile)
    (isDirectory isSourceMonitored sourceStored shouldProcessOther : Bool) :
    MinerFS :=
  if !isSourceMonitored then
    if isDirectory then trackerMinerFsAddDirectory fs otherFile true
    else fs
  else if !sourceStored && !shouldProcessOther then fs
  else if !sourceStored then
    if !isDirectory then
      itemQueueHandlersSetUp
        { fs with itemsCreated := fs.itemsCreated ++ [otherFile] }
    else
      trackerMinerFsAddDirectory fs otherFile true
  else if !shouldProcessOther then
    itemQueueHandlersSetUp
      { fs with itemsDeleted := fs.itemsDeleted ++ [file] }
  else
    itemQueueHandlersSetUp
      { fs with itemsMoved := fs.itemsMoved ++ [⟨otherFile, file⟩] }

/-- The queue an item was popped from (the QUEUE_* enum). -/
inductive QueueKind where
  | none | created | updated | deleted | moved
deriving DecidableEq, Repr

/-- item_queue_get_next_file: pops the next item honouring the drain
priority deleted, created, updated, moved.  Returns the queue kind,
the popped file, the source file for moves, and the state with the
item removed. -/
def itemQueueGetNextFile (fs : MinerFS) :
    QueueKind × Option GFile × Option GFile × MinerFS :=
  match fs.itemsDeleted with
  | f :: rest => (.deleted, some f, none, { fs with itemsDeleted := rest })
  | [] =>
    match fs.itemsCreated with
    | f :: rest => (.created, some f, none, { fs with itemsCreated := rest })
    | [] =>
      match fs.itemsUpdated with
      | f :: rest => (.updated, some f, none, { fs with itemsUpdated := rest })
      | [] =>
        match fs.itemsMoved with
        | d :: rest =>
          (.moved, some d.file, some d.sourceFile,
            { fs with itemsMoved := rest })
        | [] => (.none, none, none, fs)

/-- The items_to_process accumulation of item_queue_get_progress: the
summed length of the four queues. -/
def itemsToProcess (fs : MinerFS) : Nat :=
  fs.itemsDeleted.length + fs.itemsCreated.length +
  fs.itemsUpdated.length + fs.itemsMoved.length

/-- The items_total accumulation of item_queue_get_progress. -/
def itemsTotal (fs : MinerFS) : Nat :=
  fs.totalDirectoriesFound + fs.totalFilesFound

/-- item_queue_get_progress. -/
def itemQueueGetProgress (fs : MinerFS) : ℚ :=
  if itemsToProcess fs = 0 ∧ 0 < itemsTotal fs then 0
  else if itemsTotal fs = 0 ∨ itemsTotal fs < itemsToProcess fs then 1
  else
    ((itemsTotal fs : ℚ) - (itemsToProcess fs : ℚ)) / (itemsTotal fs : ℚ)

/-- The oracles a queue-handler tick consults: tracker_file_is_locked,
item_query_exists (a store round trip), g_file_query_info success on a
file, and the boolean returned by the ::process-file handler. -/
structure TickEnv where
  locked : GFile → Bool
  existsInStore : GFile → Bool
  statOk : GFile → Bool
  processAccepts : GFile → Bool

/-- Observable dispatch events of a tick: the ::process-file signal
emission of item_add_or_update, the delete batch of item_remove, and
the move batch of item_move. -/
inductive Event where
  | extraction (file : GFile)
  | removal (file : GFile)
  | moveBatch (file sourceFile : GFile)
deriving DecidableEq, Repr

/-- Removes the first pool entry holding the given file
(process_data_find followed by g_list_remove). -/
def poolRemoveFirst (pool : List ProcessData) (file : GFile) :
    List ProcessData :=
  match pool with
  | [] => []
  | p :: rest =>
    if gFileEqual p.file file then rest else p :: poolRemoveFirst rest file

/-- item_add_or_update: prepends a pool entry, emits ::process-file,
and on acceptance keeps processing only while the pool is still below
the limit; a declined file is removed from the pool again.  Returns
(keep_processing, state, events). -/
def itemAddOrUpdate (env : TickEnv) (fs : MinerFS) (file : GFile) :
    Bool × MinerFS × List Event :=
  let fs :=
    { fs with processingPool := ⟨file, some false⟩ :: fs.processingPool }
  if env.processAccepts file then
    (fs.processingPool.length < fs.poolLimit, fs, [.extraction file])
  else
    (true,
     { fs with processingPool := poolRemoveFirst fs.processingPool file },
     [.extraction file])

/-- item_remove: when the store does not know the file this is a
no-op returning TRUE; otherwise a delete batch is issued, a pool entry
(with a null cancellable) is prepended, and FALSE is returned. -/
def itemRemove (env : TickEnv) (fs : MinerFS) (file : GFile) :
    Bool × MinerFS × List Event :=
  if !env.existsInStore file then (true, fs, [])
  else
    (false,
     { fs with processingPool := ⟨file, none⟩ :: fs.processingPool },
     [.removal file])

/-- item_move, at the level of the queue handler: an unknown source
falls through to item_add_or_update on the destination; a vanished
destination falls through to item_remove on the source; otherwise the
move batch is issued, a pool entry is prepended and TRUE is
returned. -/
def itemMoveDispatch (env : TickEnv) (fs : MinerFS)
    (file sourceFile : GFile) : Bool × MinerFS × List Event :=
  if !env.existsInStore sourceFile then itemAddOrUpdate env fs file
  else if !env.statOk file then itemRemove env fs sourceFile
  else
    (true,
     { fs with processingPool := ⟨file, none⟩ :: fs.processingPool },
     [.moveBatch file sourceFile])

/-- process_stop: emits ::finished and zeroes the lifetime totals. -/
def processStop (fs : MinerFS) : MinerFS :=
  { fs with totalDirectoriesFound := 0, totalFilesFound := 0,
            beenCrawled := true }

/-- The outcome of one run of item_queue_handlers_cb. -/
structure TickResult where
  fs : MinerFS
  popped : QueueKind
  lockedDrop : Bool
  keep : Bool
  events : List Event
deriving Repr

/-- item_queue_handlers_cb: one tick of the queue handler.  Pops the
next item per the drain priority; a locked file is dropped with the
handler kept armed; otherwise the item is dispatched per its queue
kind; when keep_processing is FALSE the handler id is cleared. -/
def itemQueueHandlersCb (env : TickEnv) (fs0 : MinerFS) : TickResult :=
  let (queue, file?, sourceFile?, fs) := itemQueueGetNextFile fs0
  match file? with
  | some file =>
    if env.locked file then
      { fs := fs, popped := queue, lockedDrop := true, keep := true,
        events := [] }
    else
      let (keep, fs, events) :=
        match queue, sourceFile? with
        | .moved, some sourceFile => itemMoveDispatch env fs file sourceFile
        | .deleted, _ => itemRemove env fs file
        | _, _ => itemAddOrUpdate env fs file
      if keep then
        { fs := fs, popped := queue, lockedDrop := false, keep := true,
          events := events }
      else
        { fs := { fs with itemQueuesHandler := none }, popped := queue,
          lockedDrop := false, keep := false, events := events }
  | none =>
    let fs :=
      if !fs.isCrawling && fs.processingPool.isEmpty then processStop fs
      else fs
    { fs := { fs with itemQueuesHandler := none }, popped := .none,
      lockedDrop := false, keep := false, events := [] }

/-- crawler_finished_cb: pushes every found file without the
ignore-file mark onto the created queue, clears is_crawling, adds the
counters to the per-crawl and lifetime statistics, and proceeds to the
next directory.  Each found entry carries its ignore mark. -/
def crawlerFinishedCb (fs : MinerFS) (found : List (GFile × Bool))
    (directoriesFound filesFound : Nat) : MinerFS :=
  let created :=
    fs.itemsCreated ++ (found.filter (fun e => !e.2)).map Prod.fst
  crawlDirectoriesStart
    { fs with itemsCreated := created, isCrawling := false,
              totalDirectoriesFound :=
                fs.totalDirectoriesFound + directoriesFound,
              totalFilesFound := fs.totalFilesFound + filesFound }

/-- check_files_removal: deletes from the queue every file equal to
the removed directory or underneath it. -/
def checkFilesRemoval (queue : List GFile) (parent : GFile) : List GFile :=
  queue.filter (fun f => !(gFileEqual f parent || gFileHasPrefix f parent))

/-- tracker_miner_fs_remove_directory: drops matching entries of the
directories list, purges the updated and created queues, and cancels
the cancellable of every pool entry on the removed subtree.  (The
deleted and moved queues are not touched by the C code.) -/
def trackerMinerFsRemoveDirectory (fs : MinerFS) (file : GFile) : MinerFS :=
  let dirs := fs.directories.filter
    (fun d => !(gFileEqual file d.1 || gFileHasPrefix file d.1))
  let updated := checkFilesRemoval fs.itemsUpdated file
  let created := checkFilesRemoval fs.itemsCreated file
  let pool := fs.processingPool.map (fun p =>
    if gFileEqual p.file file || gFileHasPrefix p.file file then
      { p with cancellable := p.cancellable.map (fun _ => true) }
    else p)
  { fs with directories := dirs, itemsUpdated := updated,
            itemsCreated := created, processingPool := pool }

/-- tracker_miner_fs_set_throttle: clamps to [0,1]; when the value
changes, stores it and re-installs whichever of the queue handler and
the crawl source is currently installed, with the cadence of the new
throttle. -/
def trackerMinerFsSetThrottle (fs : MinerFS) (throttle : ℚ) : MinerFS :=
  let throttle := min (max throttle 0) 1
  if fs.throttle = throttle then fs
  else
    let fs := { fs with throttle := throttle }
    let k := trackerIdleAddKind MAX_TIMEOUT_INTERVAL throttle
    let fs :=
      if fs.itemQueuesHandler.isSome then
        { fs with itemQueuesHandler := some k }
      else fs
    if fs.crawlDirectoriesId.isSome then
      { fs with crawlDirectoriesId := some k }
    else fs

/-- The states reachable from a fresh miner through the modelled
operations. -/
inductive Reachable : MinerFS → Prop where
  | init (poolLimit : Nat) (h : 1 ≤ poolLimit) :
      Reachable (initState poolLimit)
  | started {fs} : Reachable fs → Reachable (minerStarted fs)
  | monitorCreated {fs} (file : GFile) (isDirectory shouldProcess : Bool) :
      Reachable fs →
      Reachable (monitorItemCreatedCb fs file isDirectory shouldProcess)
  | monitorUpdated {fs} (file : GFile) (shouldProcess : Bool) :
      Reachable fs → Reachable (monitorItemUpdatedCb fs file shouldProcess)
  | monitorDeleted {fs} (file : GFile) (shouldProcess : Bool) :
      Reachable fs → Reachable (monitorItemDeletedCb fs file shouldProcess)
  | monitorMoved {fs} (file otherFile : GFile)
      (isDirectory isSourceMonitored sourceStored shouldProcessOther : Bool) :
      Reachable fs →
      Reachable (monitorItemMovedCb fs file otherFile isDirectory
        isSourceMonitored sourceStored shouldProcessOther)
  | crawlerFinished {fs} (found : List (GFile × Bool))
      (directoriesFound filesFound : Nat) :
      Reachable fs →
      Reachable (crawlerFinishedCb fs found directoriesFound filesFound)
  | tick {fs} (env : TickEnv) : Reachable fs →
      fs.itemQueuesHandler.isSome = true →
      Reachable (itemQueueHandlersCb env fs).fs
  | addDirectory {fs} (file : GFile) (recurse : Bool) : Reachable fs →
      Reachable (trackerMinerFsAddDirectory fs file recurse)
  | removeDirectory {fs} (file : GFile) : Reachable fs →
      Reachable (trackerMinerFsRemoveDirectory fs file)
  | setThrottle {fs} (throttle : ℚ) : Reachable fs →
      Reachable (trackerMinerFsSetThrottle fs throttle)

/-!
item_move proper works on URI strings and on the store's
nfo:belongsToContainer relation.  The store is modelled by its
item_query_exists answer, its stat result on the destination
(g_file_query_info returning the display name, or none when the file
has vanished), and the children query
SELECT ?child WHERE \x7b ?child nfo:belongsToContainer <uri> \x7d.
The nested g_main_loop_run awaiting the recursion becomes a recursive
function that is fully evaluated before the batch is formed; fuel
bounds the recursion depth (the C code assumes the containment
relation is well-founded). -/
structure MoveStore where
  existsUri : String → Bool
  statDisplayName : String → Option String
  children : String → List String

/-- g_str_has_prefix str pre, decided on the underlying character
lists. -/
def gStrHasPrefix (str pre : String) : Bool :=
  pre.data.isPrefixOf str.data

/-- item_update_uri_recursively together with its callback: emits the
tracker:uri rewrite pair for the visited node and recurses into every
child of the node whose URI starts with the top-level source URI (a
child failing that check is skipped with a warning).  The rewritten
URI is always computed against the top-level pair, as in the C code
(RecursiveMoveData.source_uri / .uri are fixed for the whole
recursion). -/
def moveRewritePairs (st : MoveStore) (topSource topUri : String) :
    Nat → String → List (String × String)
  | 0, node => [(node, topUri ++ node.drop topSource.length)]
  | fuel + 1, node =>
    (node, topUri ++ node.drop topSource.length) ::
      ((st.children node).filter (fun c => gStrHasPrefix c topSource)).flatMap
        (moveRewritePairs st topSource topUri fuel)

/-- What item_move does with a popped Moved item. -/
inductive MoveResult where
  | createdSemantics (uri : String)
  | deletedSemantics (sourceUri : String)
  | batch (pairs : List (String × String)) (displayName : String)
deriving DecidableEq, Repr

/-- item_move: unknown source falls through to indexing the
destination from scratch; vanished destination falls through to
removing the source; otherwise the batch rewrites the source's
nfo:fileName to the destination's display name and carries the
recursive tracker:uri rewrite pairs. -/
def itemMoveModel (st : MoveStore) (fuel : Nat) (uri sourceUri : String) :
    MoveResult :=
  if !st.existsUri sourceUri then .createdSemantics uri
  else
    match st.statDisplayName uri with
    | none => .deletedSemantics sourceUri
    | some displayName =>
      .batch (moveRewritePairs st sourceUri uri fuel sourceUri) displayName

/-- A chain of nfo:belongsToContainer steps from a node down to a
descendant, every step staying inside the top-level source subtree
(the prefix check the C callback applies to each returned child). -/
inductive DescChain (st : MoveStore) (topSource : String) :
    String → Nat → String → Prop where
  | refl (node : String) : DescChain st topSource node 0 node
  | cons {node c n d} : c ∈ st.children node →
      gStrHasPrefix c topSource = true →
      DescChain st topSource c n d →
      DescChain st topSource node (n + 1) d

/-- Every descendant reached within the fuel bound gets its rewrite
pair into the batch. -/
theorem moveRewritePairs_mem (st : MoveStore) (topSource topUri : String) :
    ∀ {node d : String} {len fuel : Nat},
      DescChain st topSource node len d → len ≤ fuel →
      (d, topUri ++ d.drop topSource.length) ∈
        moveRewritePairs st topSource topUri fuel node := by
  intro node d len fuel hchain
  induction hchain generalizing fuel with
  | refl node =>
    intro _
    cases fuel with
    | zero => simp [moveRewritePairs]
    | succ m => simp [moveRewritePairs]
  | cons hmem hpre _ ih =>
    intro hle
    cases fuel with
    | zero => omega
    | succ m =>
      simp only [moveRewritePairs, List.mem_cons]
      right
      refine List.mem_flatMap.mpr ⟨_, ?_, ih (by omega)⟩
      exact List.mem_filter.mpr ⟨hmem, hpre⟩

/-!  Helper lemmas. -/

/-- item_queue_handlers_set_up touches only the handler id: the queues,
the pool, the limit, the flags and the statistics are untouched. -/
theorem setUp_preserves (fs : MinerFS) :
    (itemQueueHandlersSetUp fs).itemsCreated = fs.itemsCreated ∧
    (itemQueueHandlersSetUp fs).itemsUpdated = fs.itemsUpdated ∧
    (itemQueueHandlersSetUp fs).itemsDeleted = fs.itemsDeleted ∧
    (itemQueueHandlersSetUp fs).itemsMoved = fs.itemsMoved ∧
    (itemQueueHandlersSetUp fs).processingPool = fs.processingPool ∧
    (itemQueueHandlersSetUp fs).directories = fs.directories ∧
    (itemQueueHandlersSetUp fs).poolLimit = fs.poolLimit := by
  unfold itemQueueHandlersSetUp
  split
  · exact ⟨rfl, rfl, rfl, rfl, rfl, rfl, rfl⟩
  split
  · exact ⟨rfl, rfl, rfl, rfl, rfl, rfl, rfl⟩
  split
  · exact ⟨rfl, rfl, rfl, rfl, rfl, rfl, rfl⟩
  · exact ⟨rfl, rfl, rfl, rfl, rfl, rfl, rfl⟩

/-- crawl_directories_start touches only the crawl source id. -/
theorem crawlStart_preserves (fs : MinerFS) :
    (crawlDirectoriesStart fs).itemsCreated = fs.itemsCreated ∧
    (crawlDirectoriesStart fs).itemsUpdated = fs.itemsUpdated ∧
    (crawlDirectoriesStart fs).itemsDeleted = fs.itemsDeleted ∧
    (crawlDirectoriesStart fs).itemsMoved = fs.itemsMoved ∧
    (crawlDirectoriesStart fs).processingPool = fs.processingPool ∧
    (crawlDirectoriesStart fs).directories = fs.directories := by
  unfold crawlDirectoriesStart
  split
  · exact ⟨rfl, rfl, rfl, rfl, rfl, rfl⟩
  split
  · exact ⟨rfl, rfl, rfl, rfl, rfl, rfl⟩
  · exact ⟨rfl, rfl, rfl, rfl, rfl, rfl⟩

/-!  C2 -/

/-- C2: whenever the queue handler dequeues the next item,
item_queue_get_next_file takes the head of the deleted queue if
non-empty, else the head of the created queue, else the head of the
updated queue, else the head of the moved queue; in particular with
all four queues non-empty the dispatched item comes from the deleted
queue. -/
theorem c2_drain_priority (fs : MinerFS) :
    (∀ f rest, fs.itemsDeleted = f :: rest →
      itemQueueGetNextFile fs =
        (.deleted, some f, none, { fs with itemsDeleted := rest })) ∧
    (∀ f rest, fs.itemsDeleted = [] → fs.itemsCreated = f :: rest →
      itemQueueGetNextFile fs =
        (.created, some f, none, { fs with itemsCreated := rest })) ∧
    (∀ f rest, fs.itemsDeleted = [] → fs.itemsCreated = [] →
      fs.itemsUpdated = f :: rest →
      itemQueueGetNextFile fs =
        (.updated, some f, none, { fs with itemsUpdated := rest })) ∧
    (∀ d rest, fs.itemsDeleted = [] → fs.itemsCreated = [] →
      fs.itemsUpdated = [] → fs.itemsMoved = d :: rest →
      itemQueueGetNextFile fs =
        (.moved, some d.file, some d.sourceFile,
          { fs with itemsMoved := rest })) := by
  refine ⟨?_, ?_, ?_, ?_⟩
  · intro f rest hd
    simp [itemQueueGetNextFile, hd]
  · intro f rest hd hc
    simp [itemQueueGetNextFile, hd, hc]
  · intro f rest hd hc hu
    simp [itemQueueGetNextFile, hd, hc, hu]
  · intro d rest hd hc hu hm
    simp [itemQueueGetNextFile, hd, hc, hu, hm]

/-- The state used to witness C2: all four queues non-empty. -/
def c2Fs : MinerFS :=
  { initState 1 with
      itemsDeleted := [["d"]], itemsCreated := [["c"]],
      itemsUpdated := [["u"]], itemsMoved := [⟨["m"], ["n"]⟩] }

/-- C2 witness: with all four queues non-empty the popped item is the
head of the deleted queue. -/
theorem c2_drain_priority_witness :
    itemQueueGetNextFile c2Fs =
      (.deleted, some ["d"], none, { c2Fs with itemsDeleted := [] }) :=
  (c2_drain_priority c2Fs).1 ["d"] [] rfl

/-!  C1 -/

/-- A reachable state obtained by an updated-monitor event for
data/a followed by a created-monitor event for the same file. -/
def c1Fs : MinerFS :=
  monitorItemCreatedCb
    (monitorItemUpdatedCb (minerStarted (initState 1)) ["data", "a"] true)
    ["data", "a"] false true

/-- C1 counterexample: after Updated(u) and then Created(u), the URI u
sits in the updated queue and in the created queue at the same time in
a reachable state — enqueuing Created(u) did not remove the Updated
entry, so u appears in two queues at once. -/
theorem c1_counterexample :
    Reachable c1Fs ∧
    c1Fs.itemsUpdated = [["data", "a"]] ∧
    c1Fs.itemsCreated = [["data", "a"]] := by
  refine ⟨?_, by decide, by decide⟩
  exact Reachable.monitorCreated _ false true
    (Reachable.monitorUpdated _ true
      (Reachable.started (Reachable.init 1 le_rfl)))

/-- C1 amended: the monitor enqueue callbacks perform no
deduplication at all.  Enqueuing Created(u) leaves the updated and
deleted queues unchanged and appends u to the created queue; enqueuing
Deleted(u) leaves the created and updated queues unchanged and appends
u to the deleted queue; enqueuing Updated(u) leaves the created queue
unchanged and appends u to the updated queue. -/
theorem c1_no_dedup (fs : MinerFS) (u : GFile) :
    ((monitorItemCreatedCb fs u false true).itemsUpdated = fs.itemsUpdated ∧
     (monitorItemCreatedCb fs u false true).itemsDeleted = fs.itemsDeleted ∧
     (monitorItemCreatedCb fs u false true).itemsCreated =
       fs.itemsCreated ++ [u]) ∧
    ((monitorItemDeletedCb fs u true).itemsCreated = fs.itemsCreated ∧
     (monitorItemDeletedCb fs u true).itemsUpdated = fs.itemsUpdated ∧
     (monitorItemDeletedCb fs u true).itemsDeleted =
       fs.itemsDeleted ++ [u]) ∧
    ((monitorItemUpdatedCb fs u true).itemsCreated = fs.itemsCreated ∧
     (monitorItemUpdatedCb fs u true).itemsDeleted = fs.itemsDeleted ∧
     (monitorItemUpdatedCb fs u true).itemsUpdated =
       fs.itemsUpdated ++ [u]) := by
  have h1 := setUp_preserves { fs with itemsCreated := fs.itemsCreated ++ [u] }
  have h2 := setUp_preserves { fs with itemsDeleted := fs.itemsDeleted ++ [u] }
  have h3 := setUp_preserves { fs with itemsUpdated := fs.itemsUpdated ++ [u] }
  simp only [monitorItemCreatedCb, monitorItemDeletedCb,
    monitorItemUpdatedCb, if_true, Bool.false_eq_true, if_false]
  exact ⟨⟨h1.2.1, h1.2.2.1, h1.1⟩, ⟨h2.1, h2.2.1, h2.2.2.1⟩,
    ⟨h3.1, h3.2.2.1, h3.2.1⟩⟩

/-!  C3 -/

/-- A tick environment in which every file is unlocked, present in the
store, stat-able and accepted by the extractor. -/
def c3Env : TickEnv :=
  ⟨fun _ => false, fun _ => true, fun _ => true, fun _ => true⟩

/-- Reachable state with two queued moves and pool limit 1. -/
def c3Pre : MinerFS :=
  monitorItemMovedCb
    (monitorItemMovedCb (minerStarted (initState 1))
      ["m1s"] ["m1d"] false true true true)
    ["m2s"] ["m2d"] false true true true

/-- c3Pre after one queue-handler tick: the first move was dispatched,
filling the single pool slot, and the handler stayed armed. -/
def c3Fs : MinerFS := (itemQueueHandlersCb c3Env c3Pre).fs

theorem c3Pre_reachable : Reachable c3Pre :=
  Reachable.monitorMoved _ _ false true true true
    (Reachable.monitorMoved _ _ false true true true
      (Reachable.started (Reachable.init 1 le_rfl)))

/-- C3 counterexample: at the reachable state c3Fs the pool already
holds poolLimit = 1 entries and the handler is still armed, and the
next tick dequeues and dispatches the second Moved item anyway — so a
moved item is dispatched while the pool is not strictly below
pool_limit, and the pool then exceeds pool_limit. -/
theorem c3_counterexample :
    Reachable c3Fs ∧
    c3Fs.poolLimit = 1 ∧
    c3Fs.processingPool.length = 1 ∧
    c3Fs.itemQueuesHandler.isSome = true ∧
    (itemQueueHandlersCb c3Env c3Fs).popped = .moved ∧
    (itemQueueHandlersCb c3Env c3Fs).events =
      [.moveBatch ["m2d"] ["m2s"]] ∧
    (itemQueueHandlersCb c3Env c3Fs).fs.processingPool.length = 2 := by
  refine ⟨?_, by decide, by decide, by decide, by decide, by decide,
    by decide⟩
  exact Reachable.tick c3Env c3Pre_reachable (by decide)

/-- C3 amended: the admission check exists but is not applied to every
dispatch.  The queue handler is installed only while the pool is
strictly below pool_limit, and a dispatched Created/Updated item that
the extractor accepts lets processing continue only while the pool
stays strictly below the limit; a Moved dispatch, however, does not
re-check the limit, so the pool can reach and exceed pool_limit. -/
theorem c3_admission (fs : MinerFS) (env : TickEnv) (file : GFile) :
    (fs.itemQueuesHandler = none →
      (itemQueueHandlersSetUp fs).itemQueuesHandler.isSome = true →
      fs.processingPool.length < fs.poolLimit) ∧
    (env.processAccepts file = true →
      ((itemAddOrUpdate env fs file).1 = true ↔
        (itemAddOrUpdate env fs file).2.1.processingPool.length <
          fs.poolLimit)) := by
  constructor
  · intro hnone hsome
    unfold itemQueueHandlersSetUp at hsome
    rw [hnone] at hsome
    simp only [Option.isSome_none] at hsome
    by_cases hp : fs.isPaused
    · simp [hp, hnone] at hsome
    · by_cases hl : fs.processingPool.length ≥ fs.poolLimit
      · simp [hp, hl, hnone] at hsome
      · omega
  · intro ha
    simp [itemAddOrUpdate, ha]

/-- State used to witness C3's amended theorem. -/
def c3wFs : MinerFS := { initState 2 with itemQueuesHandler := none }

/-- C3 amended witness: at a concrete state with an empty pool and
limit 2, installing the handler succeeds and the admission inequality
0 < 2 is recovered from the theorem; and an accepted Created dispatch
keeps processing exactly because 1 < 2. -/
theorem c3_admission_witness :
    c3wFs.processingPool.length < c3wFs.poolLimit ∧
    (itemAddOrUpdate c3Env c3wFs ["f"]).1 = true := by
  constructor
  · exact (c3_admission c3wFs c3Env ["f"]).1 (by decide) (by decide)
  · exact ((c3_admission c3wFs c3Env ["f"]).2 (by decide)).mpr (by decide)

/-!  C4 -/

/-- Reachable state with a Deleted entry underneath the root that is
about to be removed. -/
def c4Fs : MinerFS :=
  monitorItemDeletedCb (minerStarted (initState 1)) ["data", "x"] true

/-- C4 counterexample: data/x lies under the root data, yet after
tracker_miner_fs_remove_directory data the entry is still in the
deleted queue — remove_root purges only the created and updated
queues, so an entry with the root as prefix does remain in one of the
four queues. -/
theorem c4_counterexample :
    Reachable c4Fs ∧
    gFileHasPrefix ["data", "x"] ["data"] = true ∧
    (trackerMinerFsRemoveDirectory c4Fs ["data"]).itemsDeleted =
      [["data", "x"]] := by
  refine ⟨?_, by decide, by decide⟩
  exact Reachable.monitorDeleted _ true
    (Reachable.started (Reachable.init 1 le_rfl))

/-- C4 amended: after remove_root(R) no entry equal to R or under R
remains in the created or updated queues, and every in-flight pool
entry on such a URI has its cancellable cancelled; the deleted and
moved queues are left untouched. -/
theorem c4_remove_root (fs : MinerFS) (root : GFile) :
    (∀ f ∈ (trackerMinerFsRemoveDirectory fs root).itemsCreated,
       ¬(gFileEqual f root = true ∨ gFileHasPrefix f root = true)) ∧
    (∀ f ∈ (trackerMinerFsRemoveDirectory fs root).itemsUpdated,
       ¬(gFileEqual f root = true ∨ gFileHasPrefix f root = true)) ∧
    (∀ p ∈ (trackerMinerFsRemoveDirectory fs root).processingPool,
       (gFileEqual p.file root = true ∨ gFileHasPrefix p.file root = true) →
       ∀ b, p.cancellable = some b → b = true) ∧
    (trackerMinerFsRemoveDirectory fs root).itemsDeleted =
      fs.itemsDeleted ∧
    (trackerMinerFsRemoveDirectory fs root).itemsMoved = fs.itemsMoved := by
  refine ⟨?_, ?_, ?_, rfl, rfl⟩
  · intro f hf
    have := (List.mem_filter.mp hf).2
    simp only [Bool.not_eq_eq_eq_not, Bool.not_true, Bool.or_eq_false_iff]
      at this
    simp [this.1, this.2]
  · intro f hf
    have := (List.mem_filter.mp hf).2
    simp only [Bool.not_eq_eq_eq_not, Bool.not_true, Bool.or_eq_false_iff]
      at this
    simp [this.1, this.2]
  · intro p hp hmatch b hb
    simp only [trackerMinerFsRemoveDirectory, List.mem_map] at hp
    obtain ⟨q, _, hq⟩ := hp
    by_cases hc : (gFileEqual q.file root || gFileHasPrefix q.file root)
                    = true
    · rw [if_pos hc] at hq
      rw [← hq] at hb
      rcases hx : q.cancellable with _ | b0 <;> rw [hx] at hb <;>
        simp at hb
      exact hb
    · rw [if_neg hc] at hq
      subst hq
      rcases hmatch with h | h <;> simp [h] at hc

/-- Concrete state for the C4 witness: one created entry outside the
removed root, one in-flight entry underneath it. -/
def c4wFs : MinerFS :=
  { initState 1 with
      itemsCreated := [["keep"]],
      processingPool := [⟨["data", "busy"], some false⟩] }

/-- C4 amended witness: at c4wFs, removing the root data leaves the
surviving created entry not matching the root, and the in-flight entry
under data comes out with its cancellable cancelled. -/
theorem c4_remove_root_witness :
    ¬(gFileEqual ["keep"] ["data"] = true ∨
      gFileHasPrefix ["keep"] ["data"] = true) ∧
    (trackerMinerFsRemoveDirectory c4wFs ["data"]).processingPool =
      [⟨["data", "busy"], some true⟩] ∧
    (trackerMinerFsRemoveDirectory c4wFs ["data"]).itemsMoved =
      c4wFs.itemsMoved := by
  refine ⟨(c4_remove_root c4wFs ["data"]).1 ["keep"] (by decide),
    by decide, (c4_remove_root c4wFs ["data"]).2.2.2.2⟩

/-!  C5 -/

/-- C5 amended: when the popped file is locked, item_queue_handlers_cb
simply drops it: the resulting state is the popped state (the item is
not re-pushed anywhere), no dispatch event is emitted, and the handler
returns TRUE and stays armed rather than yielding. -/
theorem c5_locked_drop (env : TickEnv) (fs fs' : MinerFS) (k : QueueKind)
    (f : GFile) (src : Option GFile)
    (hpop : itemQueueGetNextFile fs = (k, some f, src, fs'))
    (hlock : env.locked f = true) :
    itemQueueHandlersCb env fs =
      { fs := fs', popped := k, lockedDrop := true, keep := true,
        events := [] } := by
  unfold itemQueueHandlersCb
  rw [hpop]
  simp [hlock]

/-- Environment in which exactly the file data/l is locked. -/
def c5Env : TickEnv :=
  ⟨fun f => f = ["data", "l"], fun _ => false, fun _ => true,
   fun _ => true⟩

/-- Reachable state whose created queue holds the locked file. -/
def c5Fs : MinerFS :=
  monitorItemCreatedCb (minerStarted (initState 1)) ["data", "l"] false true

/-- C5 counterexample: dequeuing the locked item data/l neither
re-pushes it to the created queue tail nor yields — all four queues of
the resulting state are empty (the item is lost) while the handler
keeps running (the callback returned TRUE). -/
theorem c5_counterexample :
    Reachable c5Fs ∧
    c5Fs.itemsCreated = [["data", "l"]] ∧
    c5Env.locked ["data", "l"] = true ∧
    (itemQueueHandlersCb c5Env c5Fs).keep = true ∧
    (itemQueueHandlersCb c5Env c5Fs).fs.itemsCreated = [] ∧
    (itemQueueHandlersCb c5Env c5Fs).fs.itemsUpdated = [] ∧
    (itemQueueHandlersCb c5Env c5Fs).fs.itemsDeleted = [] ∧
    (itemQueueHandlersCb c5Env c5Fs).fs.itemsMoved = [] ∧
    (itemQueueHandlersCb c5Env c5Fs).events = [] := by
  refine ⟨?_, by decide, by decide, by decide, by decide, by decide,
    by decide, by decide, by decide⟩
  exact Reachable.monitorCreated _ false true
    (Reachable.started (Reachable.init 1 le_rfl))

/-- C5 amended witness: the locked-drop behaviour evaluated at the
concrete state c5Fs. -/
theorem c5_locked_drop_witness :
    itemQueueHandlersCb c5Env c5Fs =
      { fs := { c5Fs with itemsCreated := [] }, popped := .created,
        lockedDrop := true, keep := true, events := [] } :=
  c5_locked_drop c5Env c5Fs _ .created ["data", "l"] none (by decide)
    (by decide)

/-!  C6 -/

/-- Reachable state right after a crawl found 1 directory and 2 files
whose created entries were all marked ignored: totals are 3, all
queues are empty. -/
def c6Fs : MinerFS := crawlerFinishedCb (minerStarted (initState 1)) [] 1 2

/-- C6 counterexample: at the reachable state c6Fs we have
items_total = 3 and items_pending = 0, and the code reports progress
0, while the claimed formula (items_total − items_pending) /
items_total gives 1 — and the ensuing jump downward also breaks
monotonicity. -/
theorem c6_counterexample :
    Reachable c6Fs ∧
    itemsTotal c6Fs = 3 ∧
    itemsToProcess c6Fs = 0 ∧
    itemQueueGetProgress c6Fs = 0 ∧
    ((3 : ℚ) - 0) / 3 = 1 := by
  refine ⟨?_, by decide, by decide, by decide, by norm_num⟩
  exact Reachable.crawlerFinished [] 1 2
    (Reachable.started (Reachable.init 1 le_rfl))

/-- C6 amended: the reported progress always lies in [0,1] and equals
(items_total − items_pending) / items_total whenever
0 < items_pending ≤ items_total; but when the queues are empty and
items_total > 0 the code reports 0 (and it reports 1 when
items_total = 0 or items_pending > items_total), so within a crawl the
reported value is not monotonically non-decreasing. -/
theorem c6_progress (fs : MinerFS) :
    (0 ≤ itemQueueGetProgress fs ∧ itemQueueGetProgress fs ≤ 1) ∧
    (0 < itemsToProcess fs → itemsToProcess fs ≤ itemsTotal fs →
     itemQueueGetProgress fs =
       ((itemsTotal fs : ℚ) - (itemsToProcess fs : ℚ)) /
         (itemsTotal fs : ℚ)) ∧
    (itemsToProcess fs = 0 → 0 < itemsTotal fs →
     itemQueueGetProgress fs = 0) := by
  refine ⟨?_, ?_, ?_⟩
  · unfold itemQueueGetProgress
    split
    · norm_num
    split
    · norm_num
    · rename_i h1 h2
      push_neg at h1 h2
      have htpos : 0 < itemsTotal fs := Nat.pos_of_ne_zero h2.1
      have hple : itemsToProcess fs ≤ itemsTotal fs := h2.2
      have hcast : (itemsToProcess fs : ℚ) ≤ (itemsTotal fs : ℚ) := by
        exact_mod_cast hple
      have hcpos : (0 : ℚ) < (itemsTotal fs : ℚ) := by exact_mod_cast htpos
      constructor
      · apply div_nonneg (by linarith) (le_of_lt hcpos)
      · rw [div_le_one hcpos]
        have : (0 : ℚ) ≤ (itemsToProcess fs : ℚ) := by positivity
        linarith
  · intro hppos hple
    unfold itemQueueGetProgress
    rw [if_neg (by omega), if_neg (by push_neg; omega)]
  · intro hzero htpos
    unfold itemQueueGetProgress
    rw [if_pos ⟨hzero, htpos⟩]

/-- Concrete state for the C6 witness: totals 4, two pending created
items. -/
def c6wFs : MinerFS :=
  { initState 1 with itemsCreated := [["a"], ["b"]], totalFilesFound := 4 }

/-- C6 amended witness: at c6wFs the theorem yields progress
(4 − 2) / 4 together with the lower bound. -/
theorem c6_progress_witness :
    itemQueueGetProgress c6wFs =
      ((itemsTotal c6wFs : ℚ) - (itemsToProcess c6wFs : ℚ)) /
        (itemsTotal c6wFs : ℚ) ∧
    0 ≤ itemQueueGetProgress c6wFs := by
  constructor
  · exact (c6_progress c6wFs).2.1 (by decide) (by decide)
  · exact (c6_progress c6wFs).1.1

/-!  C7 -/

/-- Dropping a string's own length leaves the empty string (the
suffix computation of the top-level move pair). -/
theorem string_drop_self (s : String) : s.drop s.length = "" := by
  rw [String.drop_eq]
  show String.mk (s.data.drop s.data.length) = ""
  rw [List.drop_length]

/-- C7: processing Moved(from, to).  With the source absent from the
store the result is exactly the Created(to) handling; with the source
stored but the destination no longer stat-able it is exactly the
Deleted(from) handling; otherwise a batch carries the destination's
display name as the new fileName for the source and the tracker:uri
rewrite pairs, which include the pair for the moved file itself and a
pair for every stored descendant reached within the recursion depth,
rewriting its URI to to_uri ++ suffix. -/
theorem c7_item_move (st : MoveStore) (fuel : Nat)
    (uri sourceUri name : String) :
    (st.existsUri sourceUri = false →
       itemMoveModel st fuel uri sourceUri = .createdSemantics uri) ∧
    (st.existsUri sourceUri = true → st.statDisplayName uri = none →
       itemMoveModel st fuel uri sourceUri = .deletedSemantics sourceUri) ∧
    (st.existsUri sourceUri = true → st.statDisplayName uri = some name →
       itemMoveModel st fuel uri sourceUri =
         .batch (moveRewritePairs st sourceUri uri fuel sourceUri) name ∧
       (sourceUri, uri) ∈ moveRewritePairs st sourceUri uri fuel sourceUri ∧
       (∀ d len, DescChain st sourceUri sourceUri len d → len ≤ fuel →
         (d, uri ++ d.drop sourceUri.length) ∈
           moveRewritePairs st sourceUri uri fuel sourceUri)) := by
  refine ⟨?_, ?_, ?_⟩
  · intro h
    simp [itemMoveModel, h]
  · intro h hstat
    simp [itemMoveModel, h, hstat]
  · intro h hstat
    refine ⟨by simp [itemMoveModel, h, hstat], ?_, ?_⟩
    · have hmem := moveRewritePairs_mem st sourceUri uri
        (@DescChain.refl st sourceUri sourceUri) (Nat.zero_le fuel)
      rwa [string_drop_self, String.append_empty] at hmem
    · intro d len hchain hle
      exact moveRewritePairs_mem st sourceUri uri hchain hle

/-- Concrete store for the C7 witness: file:///s is stored and
contains the child file:///s/x; the destination file:///t stats with
display name t. -/
def c7Store : MoveStore where
  existsUri := fun u => u = "file:///s"
  statDisplayName := fun u => if u = "file:///t" then some "t" else none
  children := fun u => if u = "file:///s" then ["file:///s/x"] else []

/-- C7 witness: moving file:///s to file:///t with one stored child
yields a batch whose pairs contain the root rewrite and the child
rewrite file:///s/x → file:///t/x. -/
theorem c7_item_move_witness :
    itemMoveModel c7Store 2 "file:///t" "file:///s" =
      .batch (moveRewritePairs c7Store "file:///s" "file:///t" 2 "file:///s")
        "t" ∧
    ("file:///s", "file:///t") ∈
      moveRewritePairs c7Store "file:///s" "file:///t" 2 "file:///s" ∧
    ("file:///s/x", "file:///t" ++ "file:///s/x".drop "file:///s".length) ∈
      moveRewritePairs c7Store "file:///s" "file:///t" 2 "file:///s" := by
  have h := (c7_item_move c7Store 2 "file:///t" "file:///s" "t").2.2
    (by decide) (by decide)
  refine ⟨h.1, h.2.1, ?_⟩
  refine h.2.2 "file:///s/x" 1 ?_ (by decide)
  exact DescChain.cons (by decide) (by decide)
    (DescChain.refl "file:///s/x")

/-!  C8 -/

/-- The state after enqueuing Created(u) and then Deleted(u) on a
started miner with pool limit 2, before any dispatch. -/
def c8State (u : GFile) : MinerFS :=
  monitorItemDeletedCb
    (monitorItemCreatedCb (minerStarted (initState 2)) u false true) u true

/-- The first queue-handler tick on c8State. -/
def c8Tick1 (env : TickEnv) (u : GFile) : TickResult :=
  itemQueueHandlersCb env (c8State u)

/-- The second queue-handler tick on c8State. -/
def c8Tick2 (env : TickEnv) (u : GFile) : TickResult :=
  itemQueueHandlersCb env (c8Tick1 env u).fs

/-- Environment for C8: nothing is locked, the store is empty, stat
succeeds, the extractor accepts. -/
def c8Env : TickEnv :=
  ⟨fun _ => false, fun _ => false, fun _ => true, fun _ => true⟩

/-- C8 counterexample: enqueue Created(data/a) then Deleted(data/a)
before any dispatch; the queues do end empty after two ticks, but the
second tick dispatches an extraction for data/a — the queued
Created(u) is not cancelled by Deleted(u), so an extraction does run
for u. -/
theorem c8_counterexample :
    Reachable (c8State ["data", "a"]) ∧
    (c8State ["data", "a"]).itemsCreated = [["data", "a"]] ∧
    (c8State ["data", "a"]).itemsDeleted = [["data", "a"]] ∧
    (c8Tick1 c8Env ["data", "a"]).events = [] ∧
    (c8Tick2 c8Env ["data", "a"]).events =
      [.extraction ["data", "a"]] ∧
    (c8Tick2 c8Env ["data", "a"]).fs.itemsCreated = [] ∧
    (c8Tick2 c8Env ["data", "a"]).fs.itemsUpdated = [] ∧
    (c8Tick2 c8Env ["data", "a"]).fs.itemsDeleted = [] ∧
    (c8Tick2 c8Env ["data", "a"]).fs.itemsMoved = [] := by
  refine ⟨?_, by decide, by decide, by decide, by decide, by decide,
    by decide, by decide, by decide⟩
  exact Reachable.monitorDeleted _ true
    (Reachable.monitorCreated _ false true
      (Reachable.started (Reachable.init 2 (by omega))))

/-- C8 amended: enqueuing Created(u) and then Deleted(u) before any
dispatch drains to empty queues, but exactly one extraction runs for
u: the first tick pops the Deleted entry (a no-op when the store does
not contain u) and the second tick pops the surviving Created entry
and dispatches it to the extractor. -/
theorem c8_round_trip (u : GFile) (env : TickEnv)
    (hl : env.locked u = false) (he : env.existsInStore u = false)
    (ha : env.processAccepts u = true) :
    (c8Tick1 env u).popped = .deleted ∧
    (c8Tick1 env u).events = [] ∧
    (c8Tick2 env u).popped = .created ∧
    (c8Tick2 env u).events = [.extraction u] ∧
    (c8Tick2 env u).fs.itemsCreated = [] ∧
    (c8Tick2 env u).fs.itemsUpdated = [] ∧
    (c8Tick2 env u).fs.itemsDeleted = [] ∧
    (c8Tick2 env u).fs.itemsMoved = [] := by
  simp [c8Tick1, c8Tick2, c8State, monitorItemCreatedCb,
    monitorItemDeletedCb, minerStarted, initState, crawlDirectoriesStart,
    itemQueueHandlersSetUp, itemQueueHandlersCb, itemQueueGetNextFile,
    itemRemove, itemAddOrUpdate, hl, he, ha, trackerIdleAddKind,
    throttleInterval]

/-- C8 amended witness: the two-tick run evaluated at data/b under the
all-permissive empty-store environment. -/
theorem c8_round_trip_witness :
    (c8Tick1 c8Env ["data", "b"]).popped = .deleted ∧
    (c8Tick2 c8Env ["data", "b"]).events =
      [.extraction ["data", "b"]] := by
  have h := c8_round_trip ["data", "b"] c8Env (by decide) (by decide)
    (by decide)
  exact ⟨h.1, h.2.2.2.1⟩

/-!  C9 -/

/-- Reachable state with the queue handler installed (via an updated
event on a started miner). -/
def c9Fs : MinerFS :=
  monitorItemUpdatedCb (minerStarted (initState 1)) ["u"] true

theorem c9Fs_throttle : c9Fs.throttle = 0 := by decide

theorem c9Fs_handler : c9Fs.itemQueuesHandler = some .idle := by decide

/-- The truncated interval for throttle 1/16 is 0 milliseconds. -/
theorem c9_interval_sixteenth :
    throttleInterval MAX_TIMEOUT_INTERVAL (1 / 16 : ℚ) = 0 := by
  have h := throttleInterval_eq_floor MAX_TIMEOUT_INTERVAL (1 / 16 : ℚ)
    (by norm_num)
  have hfloor : Int.floor ((MAX_TIMEOUT_INTERVAL : ℚ) * (1 / 16 : ℚ)) = 0 := by
    rw [Int.floor_eq_zero_iff]
    constructor <;> norm_num [MAX_TIMEOUT_INTERVAL]
  omega

/-- C9 counterexample: setting throttle to 1/16 (a nonzero value in
[0,1], untouched by the clamp) re-installs the queue handler as an
idle hook, not as a timer: MAX_TIMEOUT_INTERVAL × 1/16 truncates to an
interval of 0 milliseconds, so a nonzero throttle is scheduled via the
idle hook. -/
theorem c9_counterexample :
    Reachable c9Fs ∧
    c9Fs.itemQueuesHandler.isSome = true ∧
    (1 / 16 : ℚ) ≠ 0 ∧
    (trackerMinerFsSetThrottle c9Fs (1 / 16)).throttle = 1 / 16 ∧
    (trackerMinerFsSetThrottle c9Fs (1 / 16)).itemQueuesHandler =
      some .idle := by
  have hclamp : min (max (1 / 16 : ℚ) 0) 1 = 1 / 16 := by
    rw [max_eq_left (by norm_num), min_eq_left (by norm_num)]
  have hne : c9Fs.throttle ≠ min (max (1 / 16 : ℚ) 0) 1 := by
    rw [c9Fs_throttle, hclamp]
    norm_num
  have hk : trackerIdleAddKind MAX_TIMEOUT_INTERVAL (1 / 16 : ℚ) = .idle := by
    unfold trackerIdleAddKind
    rw [if_pos c9_interval_sixteenth]
  refine ⟨?_, by decide, by norm_num, ?_, ?_⟩
  · exact Reachable.monitorUpdated _ true
      (Reachable.started (Reachable.init 1 le_rfl))
  · simp only [trackerMinerFsSetThrottle, if_neg hne]
    split <;> split <;> exact hclamp
  · simp only [trackerMinerFsSetThrottle, if_neg hne, hclamp, hk]
    simp [c9Fs_handler]
    split <;> rfl

/-- C9 amended: set_throttle clamps to [0,1], leaves the queues
untouched, and, when the value changed, re-installs any installed
queue handler and crawl hook with the cadence of the new throttle;
that cadence is an idle hook exactly when the truncated interval
MAX_TIMEOUT_INTERVAL × throttle is 0 milliseconds — which holds for
throttle 0 but also for small nonzero throttles — and otherwise a
timer of that many milliseconds. -/
theorem c9_set_throttle (fs : MinerFS) (t : ℚ) :
    ((trackerMinerFsSetThrottle fs t).throttle = min (max t 0) 1 ∧
     0 ≤ (trackerMinerFsSetThrottle fs t).throttle ∧
     (trackerMinerFsSetThrottle fs t).throttle ≤ 1) ∧
    ((trackerMinerFsSetThrottle fs t).itemsCreated = fs.itemsCreated ∧
     (trackerMinerFsSetThrottle fs t).itemsUpdated = fs.itemsUpdated ∧
     (trackerMinerFsSetThrottle fs t).itemsDeleted = fs.itemsDeleted ∧
     (trackerMinerFsSetThrottle fs t).itemsMoved = fs.itemsMoved) ∧
    (fs.throttle ≠ min (max t 0) 1 → fs.itemQueuesHandler.isSome = true →
      (trackerMinerFsSetThrottle fs t).itemQueuesHandler =
        some (trackerIdleAddKind MAX_TIMEOUT_INTERVAL (min (max t 0) 1))) ∧
    (fs.throttle ≠ min (max t 0) 1 → fs.crawlDirectoriesId.isSome = true →
      (trackerMinerFsSetThrottle fs t).crawlDirectoriesId =
        some (trackerIdleAddKind MAX_TIMEOUT_INTERVAL (min (max t 0) 1))) ∧
    (∀ τ : ℚ, trackerIdleAddKind MAX_TIMEOUT_INTERVAL τ = .idle ↔
      throttleInterval MAX_TIMEOUT_INTERVAL τ = 0) := by
  have hthr : (trackerMinerFsSetThrottle fs t).throttle =
      min (max t 0) 1 := by
    by_cases heq : fs.throttle = min (max t 0) 1
    · simp only [trackerMinerFsSetThrottle, if_pos heq]
      exact heq
    · simp only [trackerMinerFsSetThrottle, if_neg heq]
      split <;> split <;> rfl
  refine ⟨⟨hthr, ?_, ?_⟩, ?_, ?_, ?_, ?_⟩
  · rw [hthr]
    exact le_min (le_max_right t 0) zero_le_one
  · rw [hthr]
    exact min_le_right _ 1
  · by_cases heq : fs.throttle = min (max t 0) 1
    · simp [trackerMinerFsSetThrottle, if_pos heq]
    · simp only [trackerMinerFsSetThrottle, if_neg heq]
      split <;> split <;> exact ⟨rfl, rfl, rfl, rfl⟩
  · intro heq hsome
    simp only [trackerMinerFsSetThrottle, if_neg heq]
    simp only [hsome, if_true]
    split <;> rfl
  · intro heq hsome
    simp only [trackerMinerFsSetThrottle, if_neg heq]
    split <;> simp [hsome]
  · intro τ
    simp only [trackerIdleAddKind]
    split
    · rename_i h
      exact ⟨fun _ => h, fun _ => rfl⟩
    · rename_i h
      exact ⟨fun hk => absurd hk (fun hx => ScheduleKind.noConfusion hx),
        fun hz => absurd hz h⟩

/-- C9 amended witness: at c9Fs (handler installed, throttle 0),
setting throttle 1/2 yields a nonnegative clamped throttle and
re-installs the handler at the new cadence. -/
theorem c9_set_throttle_witness :
    (trackerMinerFsSetThrottle c9Fs (1 / 2)).itemQueuesHandler =
      some (trackerIdleAddKind MAX_TIMEOUT_INTERVAL
        (min (max (1 / 2 : ℚ) 0) 1)) ∧
    0 ≤ (trackerMinerFsSetThrottle c9Fs (1 / 2)).throttle := by
  constructor
  · refine (c9_set_throttle c9Fs (1 / 2)).2.2.1 ?_ (by decide)
    rw [c9Fs_throttle, max_eq_left (by norm_num),
      min_eq_left (by norm_num)]
    norm_num
  · exact (c9_set_throttle c9Fs (1 / 2)).1.2.1

/-!  C10 -/

/-- C10: a created-monitor event for a directory that passes the
check never touches the created queue; the directory is appended to
the directories list with recurse = TRUE and the crawl machinery is
started; only non-directories can change the created queue. -/
theorem c10_created_directory (fs : MinerFS) (file : GFile) (sp : Bool) :
    ((monitorItemCreatedCb fs file true sp).itemsCreated =
      fs.itemsCreated) ∧
    (sp = true →
      (monitorItemCreatedCb fs file true sp).directories =
        fs.directories ++ [(file, true)] ∧
      (fs.beenStarted = true → fs.crawlDirectoriesId = none →
        (monitorItemCreatedCb fs file true sp).crawlDirectoriesId.isSome =
          true)) ∧
    (∀ d other : Bool,
      (monitorItemCreatedCb fs file d other).itemsCreated ≠
        fs.itemsCreated → d = false) := by
  refine ⟨?_, ?_, ?_⟩
  · cases sp with
    | false => rfl
    | true =>
      show (trackerMinerFsAddDirectory fs file true).itemsCreated =
        fs.itemsCreated
      exact (crawlStart_preserves _).1
  · intro hsp
    subst hsp
    constructor
    · show (trackerMinerFsAddDirectory fs file true).directories =
        fs.directories ++ [(file, true)]
      exact (crawlStart_preserves _).2.2.2.2.2
    · intro hstart hid
      show (trackerMinerFsAddDirectory fs file true).crawlDirectoriesId.isSome
        = true
      unfold trackerMinerFsAddDirectory crawlDirectoriesStart
      rw [if_neg (by simp [hid]), if_neg (by simp [hstart])]
      rfl
  · intro d other hne
    cases d with
    | false => rfl
    | true =>
      exfalso
      apply hne
      cases other with
      | false => rfl
      | true =>
        show (trackerMinerFsAddDirectory fs file true).itemsCreated =
          fs.itemsCreated
        exact (crawlStart_preserves _).1

/-- Concrete started state with no crawl source installed, for the
C10 witness. -/
def c10Fs : MinerFS := { initState 1 with beenStarted := true }

/-- C10 witness: a created directory event on c10Fs appends to the
directories list and starts the crawl machinery, with the created
queue untouched. -/
theorem c10_created_directory_witness :
    (monitorItemCreatedCb c10Fs ["data", "d"] true true).itemsCreated =
      c10Fs.itemsCreated ∧
    (monitorItemCreatedCb c10Fs ["data", "d"] true true).directories =
      c10Fs.directories ++ [(["data", "d"], true)] ∧
    (monitorItemCreatedCb c10Fs ["data", "d"] true
      true).crawlDirectoriesId.isSome = true := by
  have h := c10_created_directory c10Fs ["data", "d"] true
  exact ⟨h.1, (h.2.1 rfl).1, (h.2.1 rfl).2 (by decide) (by decide)⟩

end Tracker
